import Mathlib

/-!
Verification of the Quarto/R-Markdown to notebook converters of this repository.

The development shallowly embeds the pure text-processing cores of
`batch_qmd_to_ipynb.py`, `rmd_to_colab.py`, `rmd_to_colab_01.py` and
`repair_notebooks.py`.  Python strings become Lean `String`s, Python lists
become Lean `List`s, JSON values become an inductive type `J`, and the
stateful scanning loops become explicit recursive functions threading their
state.  File I/O is modelled by `Except`-valued reads.
-/

/-! ## Python string primitives

Python `str.strip` / `rstrip` / `lstrip` with no argument remove ASCII
whitespace; `str.splitlines` splits on newlines (the documents here use
plain `\n`); `str.lower` lowercases; `str.startswith` is a prefix test.
-/

def isPySpace (c : Char) : Bool :=
  c = ' ' || c = '\t' || c = '\n' || c = '\r' || c = '\x0b' || c = '\x0c'

def pyRstrip (s : String) : String :=
  String.mk ((s.data.reverse.dropWhile isPySpace).reverse)

def pyLstrip (s : String) : String :=
  String.mk (s.data.dropWhile isPySpace)

def pystrip (s : String) : String :=
  String.mk (((s.data.dropWhile isPySpace).reverse.dropWhile isPySpace).reverse)

def pyLower (s : String) : String :=
  String.mk (s.data.map Char.toLower)

def pyStartsWith (s p : String) : Bool :=
  p.data.isPrefixOf s.data

/-- Split a character list at every occurrence of the separator character. -/
def splitOnSep (sep : Char) (l : List Char) : List (List Char) :=
  match l with
  | [] => [[]]
  | c :: cs =>
    let r := splitOnSep sep cs
    if c = sep then [] :: r
    else
      match r with
      | [] => [[c]]
      | x :: xs => (c :: x) :: xs

/-- Python `str.splitlines` for documents whose line separator is `\n`:
the empty string yields no lines, and a trailing newline does not yield a
trailing empty line. -/
def pySplitlines (s : String) : List String :=
  match s.data with
  | [] => []
  | l =>
    let parts := splitOnSep '\n' l
    let parts := if parts.getLast? = some [] then parts.dropLast else parts
    parts.map String.mk

/-- Python newline join (`"\n".join`). -/
def joinLines : List String → String
  | [] => ""
  | [l] => l
  | l :: ls => l ++ "\n" ++ joinLines ls

/-! ## Notebook cells of `batch_qmd_to_ipynb.py`

A cell dict has keys `cell_type`, `metadata`, `source`, and on code cells
`outputs` and `execution_count`.  Key presence of the last two is modelled
with `Option`: `outputs = some []` is the key present holding the empty
array (output items are modelled as plain strings; the program only ever writes `[]`),
`execution_count = some none` is the key present holding JSON `null`. -/

structure Cell where
  cell_type : String
  metadata : List (String × String)
  source : List String
  outputs : Option (List String)
  execution_count : Option (Option Int)
deriving DecidableEq, Repr

/-- `BANNER` of `batch_qmd_to_ipynb.py` (lines 17-25). -/
def BANNER : Cell :=
  { cell_type := "markdown", metadata := [],
    source := ["![Survival Analysis with R](http://drive.google.com/uc?export=view&id=1bLQ3nhDbZrCCqy_WCxxckOne2lgVvn3l)", "", "<br>"],
    outputs := none, execution_count := none }

def RPY2_MD : Cell :=
  { cell_type := "markdown", metadata := [], source := ["## Install rpy2"],
    outputs := none, execution_count := none }

def RPY2_CODE : Cell :=
  { cell_type := "code", metadata := [],
    source := ["!pip uninstall rpy2 -y -q", "!pip install rpy2==3.5.1 -q", "%load_ext rpy2.ipython"],
    outputs := some [], execution_count := some none }

def DRIVE_MD : Cell :=
  { cell_type := "markdown", metadata := [], source := ["## Mount Google Drive"],
    outputs := none, execution_count := none }

def DRIVE_CODE : Cell :=
  { cell_type := "code", metadata := [],
    source := ["from google.colab import drive", "drive.mount(\x27/content/drive\x27)"],
    outputs := some [], execution_count := some none }

def SEPARATOR : Cell :=
  { cell_type := "markdown", metadata := [], source := ["", "---", ""],
    outputs := none, execution_count := none }

/-- The boilerplate sequence inserted before the first R chunk
(`batch_qmd_to_ipynb.py` line 124). -/
def COLAB_SETUP : List Cell := [RPY2_MD, RPY2_CODE, DRIVE_MD, DRIVE_CODE, SEPARATOR]

/-- `ensure_code_cell_structure` (`batch_qmd_to_ipynb.py` lines 83-90):
on a code cell, add `outputs = []` and `execution_count = null` when the
keys are absent. -/
def ensure_code_cell_structure (cell : Cell) : Cell :=
  if cell.cell_type = "code" then
    let c1 := match cell.outputs with
      | none => { cell with outputs := some [] }
      | some _ => cell
    match c1.execution_count with
      | none => { c1 with execution_count := some none }
      | some _ => c1
  else cell

/-- The heading test of `split_headings`: Python
`re.match(r"^\s*#+\s+", line)` — optional leading whitespace, one or more
`#`, then at least one whitespace character. -/
def isHeadingBatch (line : String) : Bool :=
  match line.data.dropWhile isPySpace with
  | [] => false
  | c :: rest =>
    if c = '#' then
      match rest.dropWhile (fun d => d = '#') with
      | [] => false
      | d :: _ => isPySpace d
    else false

/-- The accumulation loop of `split_headings` (`batch_qmd_to_ipynb.py`
lines 64-74): each line is right-stripped; a heading line flushes a
non-empty accumulator and starts a fresh accumulator holding the heading. -/
def split_headings_go : List String → List String → List String
  | [], current => if current = [] then [] else [joinLines current]
  | l :: ls, current =>
    let l := pyRstrip l
    if isHeadingBatch l ∧ current ≠ [] then
      joinLines current :: split_headings_go ls [l]
    else
      split_headings_go ls (current ++ [l])

/-- `split_headings` (`batch_qmd_to_ipynb.py` lines 63-81): accumulate into
blocks, drop the two skipped boilerplate headings, right-strip each block
and keep only blocks that are non-blank. -/
def split_headings (lines : List String) : List String :=
  let blocks := split_headings_go lines []
  let cleaned := (blocks.filter (fun b =>
      !(pyStartsWith (pystrip b) "## Original Notebook Starts Here" ||
        pyStartsWith (pystrip b) "## Overview"))).map pyRstrip
  cleaned.filter (fun b => pystrip b != "")

/-! ## `qmd_to_cells` (`batch_qmd_to_ipynb.py` lines 93-164)

The regex scan `CHUNK_RE.finditer(content)` decomposes the document into an
alternating sequence of prose spans and fenced chunks, then a trailing
prose span.  The embedding takes this decomposition as input: a `Chunk`
records the raw prose preceding the match (`content[pos:m.start()]`) and
the captured `engine`, `options` and `code` groups; a `ParsedDoc` is the
chunk list plus the raw text after the last match (`content[pos:]`).

`Chunk` admits values `CHUNK_RE` cannot actually produce — in particular
`engine = ""`: the `\b` after the greedy engine class needs a word
character on exactly one side, the character before an empty capture is
always a backtick, brace or whitespace, and a following word character
would have been consumed by the greedy class (and every continuation open
to the empty capture is open to the maximal one).  The theorems below
quantify over all `Chunk` values, a superset of the reachable ones, so
this only widens them. -/

structure Chunk where
  mdBefore : String
  engine : String
  options : String
  code : String
deriving DecidableEq, Repr

structure ParsedDoc where
  chunks : List Chunk
  trailing : String
deriving DecidableEq, Repr

/-- `option_comments` (lines 116-119): split the stripped options string at
commas (`re.split(r",\s*", ...)`; the whitespace the regex consumes after a
comma is also removed by the per-piece `strip`), strip each piece and keep
those starting with `#|`. -/
def option_comments (options_str : String) : List String :=
  ((splitOnSep ',' (pystrip options_str).data).map String.mk).filterMap (fun p =>
    let q := pystrip p
    if pyStartsWith q "#|" then some q else none)

/-- `is_r` (line 121): the stripped, lowercased engine is `r` or empty, or
starts with `r`.  (The empty-engine disjunct is unreachable from
`CHUNK_RE` — see the note on `Chunk` — so it is dead code in the source.) -/
def is_r_chunk (c : Chunk) : Bool :=
  let engine := pyLower (pystrip c.engine)
  (engine = "r" || engine = "") || pyStartsWith engine "r"

/-- The R code cell built at lines 127-139: `%%R`, the option comments,
then (if the right-stripped code is non-empty) a blank line and the code
lines. -/
def rChunkCell (c : Chunk) : Cell :=
  let code := pyRstrip c.code
  { cell_type := "code", metadata := [],
    source := ["%%R"] ++ option_comments c.options ++
      (if code = "" then [] else [""] ++ pySplitlines code),
    outputs := some [], execution_count := some none }

/-- The non-R code cell built at lines 140-148: the code wrapped in a
plain fence tagged with the normalized engine. -/
def otherChunkCell (c : Chunk) : Cell :=
  let engine := pyLower (pystrip c.engine)
  let code := pyRstrip c.code
  { cell_type := "code", metadata := [],
    source := ["```" ++ engine] ++ pySplitlines code ++ ["```"],
    outputs := some [], execution_count := some none }

/-- The cell appended for a chunk (line 150 applies
`ensure_code_cell_structure`). -/
def chunkCell (c : Chunk) : Cell :=
  ensure_code_cell_structure (if is_r_chunk c then rChunkCell c else otherChunkCell c)

/-- A markdown cell of `qmd_to_cells`. -/
def mdCell (src : List String) : Cell :=
  { cell_type := "markdown", metadata := [], source := src,
    outputs := none, execution_count := none }

/-- The markdown cells emitted before a chunk (lines 101-109): strip the
span, and if non-empty split it into heading blocks, emitting each
non-blank block through `ensure_code_cell_structure`. -/
def mdCellsOf (txt : String) : List Cell :=
  let md_text := pystrip txt
  if md_text = "" then []
  else
    (split_headings (pySplitlines md_text)).filterMap (fun block =>
      if pystrip block != "" then
        some (ensure_code_cell_structure (mdCell (pySplitlines block)))
      else none)

/-- The markdown cells emitted for the trailing span (lines 154-162),
which the source does not pass through `ensure_code_cell_structure`. -/
def finalMdCells (txt : String) : List Cell :=
  let final_md := pystrip txt
  if final_md = "" then []
  else
    (split_headings (pySplitlines final_md)).filterMap (fun block =>
      if pystrip block != "" then some (mdCell (pySplitlines block)) else none)

/-- The chunk loop of `qmd_to_cells` (lines 99-151).  `firstR` is the
`first_r_chunk_found` flag: the setup sequence is inserted when an R chunk
is met with the flag still false, and the flag is then set. -/
def processChunks : Bool → List Chunk → List Cell
  | _, [] => []
  | firstR, c :: cs =>
    mdCellsOf c.mdBefore ++
    (if is_r_chunk c && !firstR then COLAB_SETUP else []) ++
    (chunkCell c :: processChunks (firstR || is_r_chunk c) cs)

/-- `qmd_to_cells` (lines 93-164): the banner, the chunk loop started with
the flag unset, then the trailing markdown. -/
def qmd_to_cells (d : ParsedDoc) : List Cell :=
  BANNER :: (processChunks false d.chunks ++ finalMdCells d.trailing)

/-! ## The line scanners of `rmd_to_colab.py` and `rmd_to_colab_01.py`

Both scripts share one while-loop over the document's lines with an index
`i` and a `first_r_seen` flag: a line matching `^```{(\w+)}` opens a chunk
whose body runs to the first line that right-strips to exactly ` ``` ` (or
to end-of-file), everything else accumulates into a markdown buffer that
is flushed when a chunk opens or the file ends.  The loop is embedded as a
state machine over the remaining lines, the state being the current buffer
(prose, or an open chunk with its language); the two scripts differ only
in how a flushed prose buffer becomes markdown cells (`emitMdPlain` versus
`emitMd01`). -/

inductive NbCell where
  | md (text : String)
  | code (text : String)
deriving DecidableEq, Repr

/-- The image markdown cell both scripts emit first
(`rmd_to_colab.py` line 37, `rmd_to_colab_01.py` line 69). -/
def IMAGE_MD : String :=
  "![All-test](http://drive.google.com/uc?export=view&id=1bLQ3nhDbZrCCqy_WCxxckOne2lgVvn3l)"

/-- The Colab setup cell source inserted before the first R chunk
(`rmd_to_colab.py` lines 68-74, `rmd_to_colab_01.py` lines 99-105; the two
strings are identical). -/
def setupCode : String :=
  "# Install rpy2\nfrom google.colab import drive\ndrive.mount(\x27/content/drive\x27)\n\n## Mount Google Drive\nfrom google.colab import drive\ndrive.mount(\x27/content/drive\x27)"

def pyWordChar (c : Char) : Bool := c.isAlphanum || c = '_'

/-- The chunk-open pattern `^```{(\w+)}` applied by `re.match`: three
backticks, an opening brace, one or more word characters (the captured
language), a closing brace; anything may follow. -/
def chunkStartLang (s : String) : Option String :=
  match s.data with
  | '\x60' :: '\x60' :: '\x60' :: '\x7b' :: rest =>
    let lang := rest.takeWhile pyWordChar
    if lang ≠ [] ∧ (rest.dropWhile pyWordChar).head? = some '\x7d' then
      some (String.mk lang)
    else none
  | _ => none

/-- `remove_knitr_quarto_options` (`rmd_to_colab.py` lines 13-16,
`rmd_to_colab_01.py` lines 16-18): drop every line whose stripped form
starts with `#|`. -/
def remove_knitr_quarto_options (lines : List String) : List String :=
  lines.filter (fun l => !(pyStartsWith (pystrip l) "#|"))

/-- Flushing a prose buffer in `rmd_to_colab.py` (lines 82-91): the
buffered lines become a single markdown cell, unconditionally. -/
def emitMdPlain (buf : List String) : List NbCell :=
  [NbCell.md (joinLines buf)]

/-- `is_heading_line` (`rmd_to_colab_01.py` lines 26-33): after stripping
leading whitespace the line starts with `#`, and after removing the `#`
run what remains starts with a space or is empty. -/
def is_heading_line (line : String) : Bool :=
  let stripped := pyLstrip line
  if !(pyStartsWith stripped "#") then false
  else
    let after_hash := String.mk (stripped.data.dropWhile (fun c => c = '#'))
    pyStartsWith after_hash " " || after_hash = ""

/-- The accumulation loop of `split_markdown_into_heading_cells`
(`rmd_to_colab_01.py` lines 36-56): a heading line flushes the current
block and becomes its own cell; other lines accumulate. -/
def split_markdown_go : List String → List String → List String
  | [], current => if current = [] then [] else [joinLines current]
  | l :: ls, current =>
    if is_heading_line l then
      (if current = [] then [] else [joinLines current]) ++
        l :: split_markdown_go ls []
    else
      split_markdown_go ls (current ++ [l])

def split_markdown_into_heading_cells (md_lines : List String) : List String :=
  split_markdown_go md_lines []

/-- The emission filter of `rmd_to_colab_01.py` (lines 123-128):
`cell_content.strip() != "" or ("\n" in cell_content or cell_content.strip())`,
a non-empty Python string counting as true. -/
def keepCell01 (c : String) : Bool :=
  (pystrip c != "") || (c.data.contains '\n' || pystrip c != "")

/-- Flushing a prose buffer in `rmd_to_colab_01.py` (lines 121-128). -/
def emitMd01 (buf : List String) : List NbCell :=
  ((split_markdown_into_heading_cells buf).filter keepCell01).map NbCell.md

/-- The cells appended for a finished chunk (`rmd_to_colab.py` lines
63-80 = `rmd_to_colab_01.py` lines 94-110): for language `r` the one-time
setup cell plus a `%%R` cell, otherwise a bare code cell. -/
def chunkCellsRmd (firstR : Bool) (lang : String) (buf : List String) : List NbCell :=
  if pyLower lang = "r" then
    (if firstR then [] else [NbCell.code setupCode]) ++
      [NbCell.code ("%%R\n" ++ joinLines buf)]
  else [NbCell.code (joinLines buf)]

inductive ScanMode where
  | prose (buf : List String)
  | inChunk (lang : String) (buf : List String)
deriving DecidableEq, Repr

/-- In prose mode, an empty buffer flushes to nothing: the source's
markdown branch only runs, and only appends a cell, when at least one
non-chunk-open line was buffered. -/
def flushProse (em : List String → List NbCell) (buf : List String) : List NbCell :=
  if buf = [] then [] else em buf

/-- The shared while-loop (`rmd_to_colab.py` lines 47-91,
`rmd_to_colab_01.py` lines 79-128) as a state machine.  In prose mode a
chunk-open line (tested on the right-stripped line) flushes the buffer and
opens a chunk; in chunk mode a line right-stripping to ` ``` ` closes the
chunk, emitting its cells and updating `first_r_seen`; end-of-file flushes
whatever is open — in particular an unterminated chunk is emitted as a
code cell holding the whole remainder. -/
def scanLines (em : List String → List NbCell) :
    ScanMode → Bool → List String → List NbCell
  | ScanMode.prose buf, _, [] => flushProse em buf
  | ScanMode.inChunk lang buf, firstR, [] => chunkCellsRmd firstR lang buf
  | ScanMode.prose buf, firstR, l :: ls =>
    match chunkStartLang (pyRstrip l) with
    | some lang =>
      flushProse em buf ++ scanLines em (ScanMode.inChunk lang []) firstR ls
    | none => scanLines em (ScanMode.prose (buf ++ [l])) firstR ls
  | ScanMode.inChunk lang buf, firstR, l :: ls =>
    if pyRstrip l = "```" then
      chunkCellsRmd firstR lang buf ++
        scanLines em (ScanMode.prose []) (firstR || pyLower lang = "r") ls
    else scanLines em (ScanMode.inChunk lang (buf ++ [l])) firstR ls

/-- `convert_qmd_to_ipynb` of `rmd_to_colab.py` (lines 25-91): clean the
option lines, then the image cell followed by the scanned cells.  (The
layout-block removal, a no-op on documents without a
`::: {layout-ncol="3"}` container, precedes the embedded part.) -/
def rmd_convert_cells (lines : List String) : List NbCell :=
  NbCell.md IMAGE_MD ::
    scanLines emitMdPlain (ScanMode.prose []) false (remove_knitr_quarto_options lines)

/-- `convert_qmd_to_ipynb` of `rmd_to_colab_01.py` (lines 59-128). -/
def rmd01_convert_cells (lines : List String) : List NbCell :=
  NbCell.md IMAGE_MD ::
    scanLines emitMd01 (ScanMode.prose []) false (remove_knitr_quarto_options lines)

/-! ## JSON values and the Repair Pass (`repair_notebooks.py`)

`repair_notebook` loads a notebook file as JSON, adds `outputs` /
`execution_count` to code cells missing them, and rewrites the file — with
`json.dump(data, f, separators=(",", ":"))` — only when something was
added.  JSON values are the inductive `J`; a Python dict is an ordered
association list (insertion order preserved; adding a key appends it). -/

inductive J where
  | null
  | bool (b : Bool)
  | num (n : Int)
  | str (s : String)
  | arr (xs : List J)
  | obj (kvs : List (String × J))

/-- The membership test `k in dict` on the ordered entry list. -/
def hasKey : List (String × J) → String → Bool
  | [], _ => false
  | p :: ps, k => p.1 = k || hasKey ps k

/-- The lookup `dict.get(k)` on the ordered entry list. -/
def lookupKey : List (String × J) → String → Option J
  | [], _ => none
  | p :: ps, k => if p.1 = k then some p.2 else lookupKey ps k

/-- Assigning `data[k] = v` on a dict that already has key `k`: the entry
keeps its position, its value is replaced. -/
def setKey : List (String × J) → String → J → List (String × J)
  | [], _, _ => []
  | p :: ps, k, v => (if p.1 = k then (p.1, v) else p) :: setKey ps k v

/-- The test `cell.get("cell_type") == "code"`. -/
def isCodeCellType (o : Option J) : Bool :=
  match o with
  | some (J.str s) => s == "code"
  | _ => false

/-- The per-cell body of the repair loop (`repair_notebooks.py` lines
31-38): on a dict whose `cell_type` is `"code"`, append `outputs = []` and
`execution_count = null` when missing; the Bool is this cell's
contribution to the `fixed` flag. -/
def repairCell (cell : J) : J × Bool :=
  match cell with
  | J.obj kvs =>
    if isCodeCellType (lookupKey kvs "cell_type") then
      let s1 := if hasKey kvs "outputs" then (kvs, false)
                else (kvs ++ [("outputs", J.arr [])], true)
      let s2 := if hasKey s1.1 "execution_count" then (s1.1, s1.2)
                else (s1.1 ++ [("execution_count", J.null)], true)
      (J.obj s2.1, s2.2)
    else (cell, false)
  | _ => (cell, false)

/-- `repair_notebook` on the loaded JSON value (`repair_notebooks.py`
lines 25-44): `none` models the early `return False` for data that is not
a dict with a `cells` key (a `cells` value that is not an array, which the
Python for-loop would treat inconsistently by its runtime type, is also
mapped to `none`; the scripts only produce array-valued `cells`).  The
Bool of the result is the `fixed` flag: the file is rewritten, with the
compact separators, exactly when it is true. -/
def repair_notebook_data (data : J) : Option (J × Bool) :=
  match data with
  | J.obj kvs =>
    match lookupKey kvs "cells" with
    | some (J.arr cells) =>
      let rs := cells.map repairCell
      some (J.obj (setKey kvs "cells" (J.arr (rs.map Prod.fst))), rs.any Prod.snd)
    | _ => none
  | _ => none

/-- JSON serialization in the style of Python `json.dump(value, f,
separators=(isep, ksep))`: no added whitespace beyond the two separator
strings.  The strings of this development need no escaping.  The recursion
is driven by a token stack with a fuel bound so that it is structural (and
hence evaluable by the kernel); fuel only runs out on values nested deeper
than the fuel, which the concrete values here never are. -/
inductive DumpTok where
  | jv (v : J)
  | lit (s : String)

def dumpSteps (isep ksep : String) : Nat → List DumpTok → String
  | 0, _ => ""
  | _, [] => ""
  | n + 1, DumpTok.lit s :: rest => s ++ dumpSteps isep ksep n rest
  | n + 1, DumpTok.jv J.null :: rest => "null" ++ dumpSteps isep ksep n rest
  | n + 1, DumpTok.jv (J.bool b) :: rest =>
    (if b then "true" else "false") ++ dumpSteps isep ksep n rest
  | n + 1, DumpTok.jv (J.num i) :: rest => toString i ++ dumpSteps isep ksep n rest
  | n + 1, DumpTok.jv (J.str s) :: rest =>
    "\"" ++ s ++ "\"" ++ dumpSteps isep ksep n rest
  | n + 1, DumpTok.jv (J.arr xs) :: rest =>
    let inner := (xs.map DumpTok.jv).intersperse (DumpTok.lit isep)
    "[" ++ dumpSteps isep ksep n (inner ++ DumpTok.lit "]" :: rest)
  | n + 1, DumpTok.jv (J.obj kvs) :: rest =>
    let inner := List.intercalate [DumpTok.lit isep]
      (kvs.map (fun p => [DumpTok.lit ("\"" ++ p.1 ++ "\"" ++ ksep), DumpTok.jv p.2]))
    "\x7b" ++ dumpSteps isep ksep n (inner ++ DumpTok.lit "\x7d" :: rest)

def dumpFuel : Nat := 1000000

/-- `json.dumps(value, separators=(",", ":"))` — the form `repair_notebook`
writes with. -/
def dumpsCompact (v : J) : String := dumpSteps "," ":" dumpFuel [DumpTok.jv v]

/-- `json.dumps(value)` with the default separators `", "` and `": "` — a
serialization an input notebook file can arrive in. -/
def dumpsDefault (v : J) : String := dumpSteps ", " ": " dumpFuel [DumpTok.jv v]

/-! ## The batch loop of `batch_qmd_to_ipynb.py` (`convert_file` / `main`)

`convert_file` (lines 167-188) wraps the read-convert-write of one file in
`try/except`: any exception is printed and swallowed, and `main`'s loop
(line 211-212) moves on to the next file.  A file is modelled by its name
and the outcome of reading-and-scanning it (`Except.error` is a raised
exception); `convert_file` turns an exception into a `failed` record
instead of propagating it. -/

structure QmdFile where
  name : String
  read : Except String ParsedDoc
deriving Repr

inductive ConvResult where
  | ok (name : String) (cells : List Cell)
  | failed (name : String) (msg : String)
deriving DecidableEq, Repr

def convert_file (f : QmdFile) : ConvResult :=
  match f.read with
  | Except.ok d => ConvResult.ok f.name (qmd_to_cells d)
  | Except.error e => ConvResult.failed f.name e

/-- The loop `for f in sorted(files): convert_file(...)` (lines 211-212),
collecting each file's printed outcome. -/
def batch_main : List QmdFile → List ConvResult
  | [] => []
  | f :: fs => convert_file f :: batch_main fs

/-! ## The batch loop of `rmd_to_colab.py` (`convert_qmd_to_ipynb` / `main`)

In contrast to `batch_qmd_to_ipynb.py`, neither `convert_qmd_to_ipynb`
(`rmd_to_colab.py` lines 25-100) nor the loop in `main` (lines 124-125)
contains any `try/except`: an exception raised while reading, converting
or writing one file propagates out of the loop and aborts the entire run
(`rmd_to_colab_01.py` is identical in this respect).  A file is modelled
by its name and the outcome of reading it; the run's result is the list
of file names processed before the first uncaught exception, paired with
that exception if one occurred. -/

structure RmdFile where
  name : String
  read : Except String (List String)
deriving Repr

/-- One `convert_qmd_to_ipynb` call: a read error is not caught, it is
returned as the raised exception; otherwise the file converts. -/
def rmd_convert_file (f : RmdFile) : Except String (List NbCell) :=
  match f.read with
  | Except.ok lines => Except.ok (rmd_convert_cells lines)
  | Except.error e => Except.error e

/-- The loop `for qmd_file in qmd_files: convert_qmd_to_ipynb(...)`
(`rmd_to_colab.py` lines 124-125): the loop body is a bare call, so the
first exception ends the loop — no later file is processed. -/
def rmd_main : List RmdFile → List String × Option String
  | [] => ([], none)
  | f :: fs =>
    match rmd_convert_file f with
    | Except.ok _ =>
      let r := rmd_main fs
      (f.name :: r.1, r.2)
    | Except.error e => ([], some e)

/-! ## Lemmas about `ensure_code_cell_structure` and cell construction -/

theorem ensure_cell_type (c : Cell) :
    (ensure_code_cell_structure c).cell_type = c.cell_type := by
  unfold ensure_code_cell_structure
  split
  · cases h1 : c.outputs <;> simp only [h1] <;>
      cases h2 : c.execution_count <;> simp [h2]
  · rfl

theorem mem_mdCellsOf_markdown (t : String) (c : Cell) (hm : c ∈ mdCellsOf t) :
    c.cell_type = "markdown" := by
  simp only [mdCellsOf] at hm
  split at hm
  · simp at hm
  · rw [List.mem_filterMap] at hm
    obtain ⟨b, _, hb⟩ := hm
    split at hb
    · cases hb
      rw [ensure_cell_type]
      rfl
    · cases hb

theorem mem_finalMdCells_markdown (t : String) (c : Cell) (hm : c ∈ finalMdCells t) :
    c.cell_type = "markdown" := by
  simp only [finalMdCells] at hm
  split at hm
  · simp at hm
  · rw [List.mem_filterMap] at hm
    obtain ⟨b, _, hb⟩ := hm
    split at hb
    · cases hb; rfl
    · cases hb

theorem chunkCell_outputs (c : Chunk) :
    (chunkCell c).outputs = some [] ∧ (chunkCell c).execution_count = some none := by
  unfold chunkCell
  by_cases h : is_r_chunk c <;> simp [h, rChunkCell, otherChunkCell, ensure_code_cell_structure]

theorem processChunks_code_fields (cs : List Chunk) (firstR : Bool) (c : Cell)
    (hm : c ∈ processChunks firstR cs) (hc : c.cell_type = "code") :
    c.outputs = some [] ∧ c.execution_count = some none := by
  induction cs generalizing firstR with
  | nil => simp [processChunks] at hm
  | cons ch cs ih =>
    unfold processChunks at hm
    rw [List.mem_append] at hm
    rcases hm with hm | hm
    · rw [List.mem_append] at hm
      rcases hm with hm | hm
      · exact absurd hc (by rw [mem_mdCellsOf_markdown _ _ hm]; decide)
      · split at hm
        · revert hc
          have : ∀ x ∈ COLAB_SETUP,
              x.cell_type = "code" → x.outputs = some [] ∧ x.execution_count = some none := by
            decide
          exact this c hm
        · simp at hm
    · rcases List.mem_cons.mp hm with hm | hm
      · subst hm; exact chunkCell_outputs ch
      · exact ih _ hm

/-- C1: every Code cell in the notebook emitted by `qmd_to_cells` carries
an `outputs` field equal to the empty array and an `execution_count` field
equal to JSON `null`, whichever construction path (banner, prose split,
setup boilerplate, R chunk, non-R chunk, trailing prose) produced it. -/
theorem code_cells_have_empty_outputs (d : ParsedDoc) (c : Cell)
    (hm : c ∈ qmd_to_cells d) (hc : c.cell_type = "code") :
    c.outputs = some [] ∧ c.execution_count = some none := by
  unfold qmd_to_cells at hm
  rcases List.mem_cons.mp hm with hm | hm
  · exact absurd hc (by subst hm; decide)
  · rcases List.mem_append.mp hm with hm | hm
    · exact processChunks_code_fields _ _ _ hm hc
    · exact absurd hc (by rw [mem_finalMdCells_markdown _ _ hm]; decide)

/-- Witness for C1 at a concrete document: the inserted `rpy2` setup code
cell of the converted one-R-chunk document has the two required fields. -/
theorem code_cells_have_empty_outputs_witness :
    RPY2_CODE.outputs = some [] ∧ RPY2_CODE.execution_count = some none :=
  code_cells_have_empty_outputs ⟨[⟨"", "r", "", "x <- 1"⟩], ""⟩ RPY2_CODE
    (by decide) (by decide)

/-! ## The boilerplate injector -/

/-- Once `first_r_chunk_found` is set, the loop emits exactly the prose
cells and the chunk cell of every remaining chunk and never the setup
sequence again. -/
theorem processChunks_true_no_setup (cs : List Chunk) :
    processChunks true cs =
      (cs.map (fun c' => mdCellsOf c'.mdBefore ++ [chunkCell c'])).flatten := by
  induction cs with
  | nil => rfl
  | cons c cs ih => simp [processChunks, ih]

/-- C2: for a document whose chunk sequence is `pre ++ c :: post` with no
R chunk in `pre` and `c` an R chunk, the emitted cells are the plain
cells of `pre`, then `c`'s preceding prose, then the setup sequence
`COLAB_SETUP` — inserted here and, the right-hand side being built from
prose and chunk cells only, nowhere else — immediately before `c`'s code
cell, then the plain cells of `post`.  So the boilerplate appears exactly
once, directly before the first primary-language chunk's cell. -/
theorem boilerplate_inserted_once (pre post : List Chunk) (c : Chunk)
    (hpre : ∀ c' ∈ pre, is_r_chunk c' = false) (hc : is_r_chunk c = true) :
    processChunks false (pre ++ c :: post) =
      (pre.map (fun c' => mdCellsOf c'.mdBefore ++ [chunkCell c'])).flatten ++
        (mdCellsOf c.mdBefore ++ (COLAB_SETUP ++ chunkCell c ::
          (post.map (fun c' => mdCellsOf c'.mdBefore ++ [chunkCell c'])).flatten)) := by
  induction pre with
  | nil =>
    simp only [List.nil_append, List.map_nil, List.flatten]
    unfold processChunks
    rw [hc]
    simp [processChunks_true_no_setup]
  | cons c' pre ih =>
    have h1 : is_r_chunk c' = false := hpre c' (by simp)
    have h2 : ∀ x ∈ pre, is_r_chunk x = false := fun x hx => hpre x (by simp [hx])
    simp only [List.cons_append]
    unfold processChunks
    rw [h1]
    simp [ih h2]

/-- Witness for C2 at a concrete document with a single R chunk. -/
theorem boilerplate_inserted_once_witness :
    processChunks false ([] ++ (⟨"", "r", "", "x <- 1"⟩ : Chunk) :: []) =
      (([] : List Chunk).map (fun c' => mdCellsOf c'.mdBefore ++ [chunkCell c'])).flatten ++
        (mdCellsOf (Chunk.mk "" "r" "" "x <- 1").mdBefore ++ (COLAB_SETUP ++
          chunkCell ⟨"", "r", "", "x <- 1"⟩ ::
          (([] : List Chunk).map (fun c' => mdCellsOf c'.mdBefore ++ [chunkCell c'])).flatten)) :=
  boilerplate_inserted_once [] [] ⟨"", "r", "", "x <- 1"⟩ (by decide) (by decide)

/-! ## The prose splitters -/

/-- Invariant proof for the accumulation loop of
`split_markdown_into_heading_cells`: with a heading-free accumulator,
every emitted cell is either a heading line of the input or the join of a
non-empty block of heading-free lines, and every heading line of the
remaining input appears as a cell. -/
theorem split_markdown_go_spec (ls : List String) (current : List String)
    (hcur : ∀ l ∈ current, is_heading_line l = false) :
    (∀ c ∈ split_markdown_go ls current,
        is_heading_line c = true ∨
        ∃ blk, blk ≠ [] ∧ (∀ l ∈ blk, is_heading_line l = false) ∧
          c = joinLines blk) ∧
    (∀ l ∈ ls, is_heading_line l = true → l ∈ split_markdown_go ls current) := by
  induction ls generalizing current with
  | nil =>
    refine ⟨fun c hc => ?_, by simp⟩
    simp only [split_markdown_go] at hc
    split at hc
    · simp at hc
    · rw [List.mem_singleton] at hc
      exact Or.inr ⟨current, by assumption, hcur, hc⟩
  | cons l ls ih =>
    by_cases hl : is_heading_line l
    · constructor
      · intro c hc
        simp only [split_markdown_go, hl, if_pos] at hc
        rw [List.mem_append] at hc
        rcases hc with hc | hc
        · split at hc
          · simp at hc
          · rw [List.mem_singleton] at hc
            exact Or.inr ⟨current, by assumption, hcur, hc⟩
        · rcases List.mem_cons.mp hc with hc | hc
          · exact Or.inl (hc ▸ hl)
          · exact (ih [] (by simp)).1 c hc
      · intro l' hl' _
        simp only [split_markdown_go, hl, if_pos]
        rw [List.mem_append, List.mem_cons]
        rcases List.mem_cons.mp hl' with hl' | hl'
        · exact Or.inr (Or.inl hl')
        · rename_i hhead
          exact Or.inr (Or.inr ((ih [] (by simp)).2 l' hl' hhead))
    · have hcur' : ∀ x ∈ current ++ [l], is_heading_line x = false := by
        intro x hx
        rcases List.mem_append.mp hx with hx | hx
        · exact hcur x hx
        · rw [List.mem_singleton] at hx
          subst hx
          exact Bool.not_eq_true _ ▸ (by simpa using hl)
      constructor
      · intro c hc
        simp only [split_markdown_go, hl, if_neg, Bool.false_eq_true,
          if_false] at hc
        exact (ih (current ++ [l]) hcur').1 c hc
      · intro l' hl' hhead
        simp only [split_markdown_go, hl, Bool.false_eq_true, if_false]
        rcases List.mem_cons.mp hl' with hl' | hl'
        · exact absurd (hl' ▸ hhead) (by simpa using hl)
        · exact (ih (current ++ [l]) hcur').2 l' hl' hhead

/-- C3 counterexample: in `split_headings` of `batch_qmd_to_ipynb.py`, a
heading line followed by prose does not become its own single-line cell —
the heading starts a fresh accumulator that also absorbs the following
non-heading lines, so `["# Title", "text"]` yields the single two-line
cell `"# Title\ntext"` and no cell equal to the bare heading. -/
theorem split_headings_groups_heading_with_prose :
    split_headings ["# Title", "text"] = ["# Title\ntext"] ∧
    "# Title" ∉ split_headings ["# Title", "text"] := by decide

/-- C3 amended: the heading-isolation rule holds for
`split_markdown_into_heading_cells` of `rmd_to_colab_01.py` — every
heading line of the input becomes its own (single-line) cell, and every
other cell is the flush of a non-empty run of non-heading lines — while
`split_headings` of `batch_qmd_to_ipynb.py` instead starts a new block at
a heading, which then absorbs the following non-heading prose. -/
theorem heading_cells_isolated (md_lines : List String) :
    (∀ l ∈ md_lines, is_heading_line l = true →
        l ∈ split_markdown_into_heading_cells md_lines) ∧
    (∀ c ∈ split_markdown_into_heading_cells md_lines,
        is_heading_line c = true ∨
        ∃ blk, blk ≠ [] ∧ (∀ l ∈ blk, is_heading_line l = false) ∧
          c = joinLines blk) :=
  ⟨(split_markdown_go_spec md_lines [] (by simp)).2,
   (split_markdown_go_spec md_lines [] (by simp)).1⟩

/-- Witness for the amended C3: on `["# A", "text"]` the heading `# A` is
a cell of its own. -/
theorem heading_cells_isolated_witness :
    "# A" ∈ split_markdown_into_heading_cells ["# A", "text"] :=
  (heading_cells_isolated ["# A", "text"]).1 "# A" (by decide) (by decide)

/-! ## Unterminated fences -/

/-- Inside an open chunk, if no remaining line right-strips to the closing
fence, the scanner consumes the whole remainder into the chunk's body and
emits it as that chunk's code cell. -/
theorem scanLines_unterminated (em : List String → List NbCell) (lang : String)
    (firstR : Bool) (body buf : List String)
    (h : ∀ l ∈ body, pyRstrip l ≠ "```") :
    scanLines em (ScanMode.inChunk lang buf) firstR body =
      chunkCellsRmd firstR lang (buf ++ body) := by
  induction body generalizing buf with
  | nil => simp [scanLines]
  | cons l ls ih =>
    have hl : pyRstrip l ≠ "```" := h l (by simp)
    simp only [scanLines, if_neg hl]
    rw [ih (buf ++ [l]) (fun x hx => h x (by simp [hx]))]
    simp

/-- C4 counterexample: on a document whose R fence is never closed,
`convert_qmd_to_ipynb` of `rmd_to_colab.py` emits no error of any kind —
its output is just the image cell, the setup cell and one code cell, and
the remainder of the document (`trailing prose`) has been silently
absorbed into that code cell.  No location is reported; the run continues
only because nothing was ever detected. -/
theorem unterminated_fence_no_error_report :
    rmd_convert_cells ["```\x7br\x7d", "x <- 1", "trailing prose"] =
      [NbCell.md IMAGE_MD, NbCell.code setupCode,
       NbCell.code "%%R\nx <- 1\ntrailing prose"] := by decide

/-- C4 amended: an unterminated fence is not reported; the converter
silently swallows the remainder of the document into the chunk's code
cell (the conversion completes normally, so the batch loop moves on to
the next file with no failure recorded for this one).  For any body with
no closing fence (and no option lines, which the global strip pass would
drop), the whole remainder lands in one `%%R` code cell. -/
theorem unterminated_fence_swallowed (body : List String)
    (h : ∀ l ∈ body, pyStartsWith (pystrip l) "#|" = false ∧ pyRstrip l ≠ "```") :
    rmd_convert_cells ("```\x7br\x7d" :: body) =
      [NbCell.md IMAGE_MD, NbCell.code setupCode,
       NbCell.code ("%%R\n" ++ joinLines body)] := by
  unfold rmd_convert_cells
  have hf : remove_knitr_quarto_options ("```\x7br\x7d" :: body) =
      "```\x7br\x7d" :: body := by
    unfold remove_knitr_quarto_options
    rw [List.filter_cons_of_pos (by decide), List.filter_eq_self.mpr]
    intro a ha
    simp [(h a ha).1]
  rw [hf]
  have hscan : scanLines emitMdPlain (ScanMode.prose []) false ("```\x7br\x7d" :: body) =
      scanLines emitMdPlain (ScanMode.inChunk "r" []) false body := by
    simp [scanLines, flushProse]
    rfl
  rw [hscan, scanLines_unterminated emitMdPlain "r" false body []
    (fun l hl => (h l hl).2)]
  simp [chunkCellsRmd]
  rfl

/-- Witness for the amended C4 at a concrete unterminated document. -/
theorem unterminated_fence_swallowed_witness :
    rmd_convert_cells ("```\x7br\x7d" :: ["x <- 1", "more text"]) =
      [NbCell.md IMAGE_MD, NbCell.code setupCode,
       NbCell.code ("%%R\n" ++ joinLines ["x <- 1", "more text"])] :=
  unterminated_fence_swallowed ["x <- 1", "more text"] (by decide)


/-! ## Repair Pass lemmas -/

theorem lookupKey_append_of_some (kvs e : List (String × J)) (k : String) (v : J)
    (h : lookupKey kvs k = some v) : lookupKey (kvs ++ e) k = some v := by
  induction kvs with
  | nil => simp [lookupKey] at h
  | cons p ps ih =>
    by_cases hp : p.1 = k
    · simpa [lookupKey, hp] using h
    · rw [List.cons_append]
      simp only [lookupKey, hp, if_neg, if_false] at h ⊢
      exact ih h

theorem isCode_append (kvs e : List (String × J))
    (h : isCodeCellType (lookupKey kvs "cell_type") = true) :
    isCodeCellType (lookupKey (kvs ++ e) "cell_type") = true := by
  unfold isCodeCellType at h ⊢
  match hf : lookupKey kvs "cell_type" with
  | some v =>
    rw [lookupKey_append_of_some _ _ _ _ hf]
    rwa [hf] at h
  | none => rw [hf] at h; simp at h

theorem hasKey_append (l1 l2 : List (String × J)) (k : String) :
    hasKey (l1 ++ l2) k = (hasKey l1 k || hasKey l2 k) := by
  induction l1 with
  | nil => simp [hasKey]
  | cons p ps ih => simp [hasKey, ih, Bool.or_assoc]

/-- A code cell whose two required keys are present is left unchanged with
the `fixed` flag clear. -/
theorem repairCell_second_pass (kvs : List (String × J))
    (hct : isCodeCellType (lookupKey kvs "cell_type") = true)
    (ho : hasKey kvs "outputs" = true)
    (he : hasKey kvs "execution_count" = true) :
    repairCell (J.obj kvs) = (J.obj kvs, false) := by
  simp [repairCell, hct, ho, he]

/-- Applying the per-cell repair twice is the same as applying it once; the
second application reports nothing to fix. -/
theorem repairCell_idem (c : J) :
    repairCell (repairCell c).1 = ((repairCell c).1, false) := by
  match c with
  | J.null => rfl
  | J.bool _ => rfl
  | J.num _ => rfl
  | J.str _ => rfl
  | J.arr _ => rfl
  | J.obj kvs =>
    by_cases hct : isCodeCellType (lookupKey kvs "cell_type") = true
    · by_cases ho : hasKey kvs "outputs" = true <;>
        by_cases he : hasKey kvs "execution_count" = true
      · rw [repairCell_second_pass kvs hct ho he]
        exact repairCell_second_pass kvs hct ho he
      · have h1 : repairCell (J.obj kvs) =
            (J.obj (kvs ++ [("execution_count", J.null)]), true) := by
          simp [repairCell, hct, ho, he]
        rw [h1]
        exact repairCell_second_pass (kvs ++ [("execution_count", J.null)])
          (isCode_append kvs [("execution_count", J.null)] hct)
          (by rw [hasKey_append]; simp [ho])
          (by rw [hasKey_append]; simp [hasKey])
      · have he' : hasKey (kvs ++ [("outputs", J.arr [])]) "execution_count" = true := by
          rw [hasKey_append]; simp [he]
        have h1 : repairCell (J.obj kvs) =
            (J.obj (kvs ++ [("outputs", J.arr [])]), true) := by
          simp [repairCell, hct, ho, he']
        rw [h1]
        exact repairCell_second_pass (kvs ++ [("outputs", J.arr [])])
          (isCode_append kvs [("outputs", J.arr [])] hct)
          (by rw [hasKey_append]; simp [hasKey])
          he'
      · have he' : hasKey (kvs ++ [("outputs", J.arr [])]) "execution_count" = false := by
          rw [hasKey_append]
          simp only [Bool.or_eq_false_iff]
          exact ⟨by simpa using he, by simp [hasKey]⟩
        have h1 : repairCell (J.obj kvs) =
            (J.obj (kvs ++ [("outputs", J.arr [])] ++ [("execution_count", J.null)]), true) := by
          simp [repairCell, hct, ho, he']
        rw [h1]
        exact repairCell_second_pass
          (kvs ++ [("outputs", J.arr [])] ++ [("execution_count", J.null)])
          (isCode_append _ [("execution_count", J.null)]
            (isCode_append kvs [("outputs", J.arr [])] hct))
          (by rw [hasKey_append, hasKey_append]; simp [hasKey])
          (by rw [hasKey_append]; simp [hasKey])
    · have h1 : repairCell (J.obj kvs) = (J.obj kvs, false) := by
        simp [repairCell, hct]
      rw [h1]
      exact h1

theorem lookup_setKey_self (kvs : List (String × J)) (k : String) (v w : J)
    (h : lookupKey kvs k = some v) : lookupKey (setKey kvs k w) k = some w := by
  induction kvs with
  | nil => simp [lookupKey] at h
  | cons p ps ih =>
    by_cases hp : p.1 = k
    · simp [lookupKey, setKey, hp]
    · simp only [lookupKey, hp, if_false] at h
      simp only [setKey, hp, if_neg, if_false, lookupKey]
      exact ih h

theorem lookup_setKey_other (kvs : List (String × J)) (k k' : String) (w : J)
    (h : k' ≠ k) : lookupKey (setKey kvs k w) k' = lookupKey kvs k' := by
  induction kvs with
  | nil => rfl
  | cons p ps ih =>
    by_cases hp : p.1 = k
    · have hk' : k ≠ k' := fun hh => h hh.symm
      simp [lookupKey, setKey, hp, hk', ih]
    · simp [lookupKey, setKey, hp, ih]

theorem setKey_setKey (kvs : List (String × J)) (k : String) (v w : J) :
    setKey (setKey kvs k v) k w = setKey kvs k w := by
  induction kvs with
  | nil => rfl
  | cons p ps ih =>
    by_cases hp : p.1 = k <;> simp [setKey, hp, ih]

/-- C5: the Repair Pass is idempotent.  If repairing a loaded notebook
value produced `d1`, then repairing `d1` changes nothing and reports
`fixed = false` — and `repair_notebook` only rewrites the file when
`fixed` is true, so a second run over the repaired file leaves it
byte-identical. -/
theorem repair_idempotent (d d1 : J) (f : Bool)
    (h : repair_notebook_data d = some (d1, f)) :
    repair_notebook_data d1 = some (d1, false) := by
  match d with
  | J.null => simp [repair_notebook_data] at h
  | J.bool _ => simp [repair_notebook_data] at h
  | J.num _ => simp [repair_notebook_data] at h
  | J.str _ => simp [repair_notebook_data] at h
  | J.arr _ => simp [repair_notebook_data] at h
  | J.obj kvs =>
    simp only [repair_notebook_data] at h
    match hc : lookupKey kvs "cells" with
    | none => rw [hc] at h; simp at h
    | some J.null => rw [hc] at h; simp at h
    | some (J.bool _) => rw [hc] at h; simp at h
    | some (J.num _) => rw [hc] at h; simp at h
    | some (J.str _) => rw [hc] at h; simp at h
    | some (J.obj _) => rw [hc] at h; simp at h
    | some (J.arr cells) =>
      rw [hc] at h
      simp only [Option.some.injEq, Prod.mk.injEq] at h
      obtain ⟨hd1, _⟩ := h
      subst hd1
      simp only [repair_notebook_data]
      rw [lookup_setKey_self _ _ _ _ hc]
      have hmap : ((cells.map repairCell).map Prod.fst).map repairCell =
          ((cells.map repairCell).map Prod.fst).map (fun x => (x, false)) :=
        List.map_congr_left fun c hcm => by
          rw [List.mem_map] at hcm
          obtain ⟨pr, hpr, rfl⟩ := hcm
          rw [List.mem_map] at hpr
          obtain ⟨c0, _, rfl⟩ := hpr
          exact repairCell_idem c0
      dsimp only
      rw [hmap]
      simp [setKey_setKey, List.map_map, List.any_map, Function.comp_def]

/-- Witness for C5: repairing the already-repaired concrete one-cell
notebook changes nothing and reports no fix. -/
theorem repair_idempotent_witness :
    repair_notebook_data (J.obj [("cells", J.arr [J.obj [("cell_type", J.str "code"),
        ("outputs", J.arr []), ("execution_count", J.null)]])]) =
      some (J.obj [("cells", J.arr [J.obj [("cell_type", J.str "code"),
        ("outputs", J.arr []), ("execution_count", J.null)]])], false) :=
  repair_idempotent
    (J.obj [("cells", J.arr [J.obj [("cell_type", J.str "code")]])]) _ true (by rfl)

/-! ## The Repair Pass frame property -/

/-- How the repair may relate an input cell to its output: unchanged, or
an object extended only by appending the two required entries. -/
def cellFrame (c c' : J) : Prop :=
  c' = c ∨ ∃ kvs extra, c = J.obj kvs ∧ c' = J.obj (kvs ++ extra) ∧
    ∀ p ∈ extra, p = ("outputs", J.arr []) ∨ p = ("execution_count", J.null)

theorem cellFrame_repair (c : J) : cellFrame c (repairCell c).1 := by
  match c with
  | J.null => exact Or.inl rfl
  | J.bool _ => exact Or.inl rfl
  | J.num _ => exact Or.inl rfl
  | J.str _ => exact Or.inl rfl
  | J.arr _ => exact Or.inl rfl
  | J.obj kvs =>
    by_cases hct : isCodeCellType (lookupKey kvs "cell_type") = true
    · by_cases ho : hasKey kvs "outputs" = true <;>
        by_cases he : hasKey kvs "execution_count" = true
      · rw [repairCell_second_pass kvs hct ho he]
        exact Or.inl rfl
      · have h1 : repairCell (J.obj kvs) =
            (J.obj (kvs ++ [("execution_count", J.null)]), true) := by
          simp [repairCell, hct, ho, he]
        rw [h1]
        exact Or.inr ⟨kvs, [("execution_count", J.null)], rfl, rfl, by simp⟩
      · have he' : hasKey (kvs ++ [("outputs", J.arr [])]) "execution_count" = true := by
          rw [hasKey_append]; simp [he]
        have h1 : repairCell (J.obj kvs) =
            (J.obj (kvs ++ [("outputs", J.arr [])]), true) := by
          simp [repairCell, hct, ho, he']
        rw [h1]
        exact Or.inr ⟨kvs, [("outputs", J.arr [])], rfl, rfl, by simp⟩
      · have he' : hasKey (kvs ++ [("outputs", J.arr [])]) "execution_count" = false := by
          rw [hasKey_append]
          simp only [Bool.or_eq_false_iff]
          exact ⟨by simpa using he, by simp [hasKey]⟩
        have h1 : repairCell (J.obj kvs) =
            (J.obj (kvs ++ [("outputs", J.arr [])] ++ [("execution_count", J.null)]), true) := by
          simp [repairCell, hct, ho, he']
        rw [h1]
        exact Or.inr ⟨kvs, [("outputs", J.arr []), ("execution_count", J.null)],
          rfl, by rw [List.append_assoc]; rfl, by simp⟩
    · have h1 : repairCell (J.obj kvs) = (J.obj kvs, false) := by
        simp [repairCell, hct]
      rw [h1]
      exact Or.inl rfl

theorem forall2_cellFrame_repair (cells : List J) :
    List.Forall₂ cellFrame cells ((cells.map repairCell).map Prod.fst) := by
  induction cells with
  | nil => exact List.Forall₂.nil
  | cons c cs ih => exact List.Forall₂.cons (cellFrame_repair c) ih

/-- C6 counterexample: the Repair Pass does not leave the rest of the file
byte-for-byte unchanged.  A notebook file holding the default(`", "` /
`": "`)-separated serialization of a notebook whose code cell lacks the
two fields contains four space bytes; the repair rewrites the whole file
with the compact separators (`","` / `":"`), and the rewritten file
contains no space byte at all — bytes of the original other than the
inserted keys were deleted, not preserved. -/
theorem repair_not_byte_preserving :
    repair_notebook_data
        (J.obj [("cells", J.arr [J.obj [("cell_type", J.str "code"),
          ("source", J.arr [])]])]) =
      some (J.obj [("cells", J.arr [J.obj [("cell_type", J.str "code"),
          ("source", J.arr []), ("outputs", J.arr []),
          ("execution_count", J.null)]])], true) ∧
    (dumpsDefault (J.obj [("cells", J.arr [J.obj [("cell_type", J.str "code"),
        ("source", J.arr [])]])])).data.count ' ' = 4 ∧
    (dumpsCompact (J.obj [("cells", J.arr [J.obj [("cell_type", J.str "code"),
        ("source", J.arr []), ("outputs", J.arr []),
        ("execution_count", J.null)]])])).data.count ' ' = 0 :=
  ⟨by rfl, by decide, by decide⟩

/-- C6 amended: the frame property holds at the JSON level, not the byte
level.  Repairing a notebook value leaves every top-level key other than
`cells` unchanged, and relates the cell lists pointwise by `cellFrame`:
each cell is either untouched or extended only by appending the missing
`outputs` / `execution_count` entries.  The rewritten file itself is the
compact re-serialization of this value, not a byte-preserving edit of the
original file. -/
theorem repair_frame (kvs : List (String × J)) (d1 : J) (f : Bool)
    (h : repair_notebook_data (J.obj kvs) = some (d1, f)) :
    ∃ cells cells',
      lookupKey kvs "cells" = some (J.arr cells) ∧
      d1 = J.obj (setKey kvs "cells" (J.arr cells')) ∧
      List.Forall₂ cellFrame cells cells' ∧
      ∀ k, k ≠ "cells" →
        lookupKey (setKey kvs "cells" (J.arr cells')) k = lookupKey kvs k := by
  simp only [repair_notebook_data] at h
  match hc : lookupKey kvs "cells" with
  | none => rw [hc] at h; simp at h
  | some J.null => rw [hc] at h; simp at h
  | some (J.bool _) => rw [hc] at h; simp at h
  | some (J.num _) => rw [hc] at h; simp at h
  | some (J.str _) => rw [hc] at h; simp at h
  | some (J.obj _) => rw [hc] at h; simp at h
  | some (J.arr cells) =>
    rw [hc] at h
    simp only [Option.some.injEq, Prod.mk.injEq] at h
    obtain ⟨hd1, _⟩ := h
    exact ⟨cells, (cells.map repairCell).map Prod.fst, rfl, hd1.symm,
      forall2_cellFrame_repair cells,
      fun k hk => lookup_setKey_other kvs "cells" k _ hk⟩

/-- Witness for the amended C6 at a concrete two-key notebook value. -/
theorem repair_frame_witness :
    ∃ cells cells',
      lookupKey [("cells", J.arr [J.obj [("cell_type", J.str "code")]]),
          ("nbformat", J.num 4)] "cells" = some (J.arr cells) ∧
      J.obj [("cells", J.arr [J.obj [("cell_type", J.str "code"),
          ("outputs", J.arr []), ("execution_count", J.null)]]),
          ("nbformat", J.num 4)] =
        J.obj (setKey [("cells", J.arr [J.obj [("cell_type", J.str "code")]]),
          ("nbformat", J.num 4)] "cells" (J.arr cells')) ∧
      List.Forall₂ cellFrame cells cells' ∧
      ∀ k, k ≠ "cells" →
        lookupKey (setKey [("cells", J.arr [J.obj [("cell_type", J.str "code")]]),
          ("nbformat", J.num 4)] "cells" (J.arr cells')) k =
        lookupKey [("cells", J.arr [J.obj [("cell_type", J.str "code")]]),
          ("nbformat", J.num 4)] k :=
  repair_frame [("cells", J.arr [J.obj [("cell_type", J.str "code")]]),
    ("nbformat", J.num 4)] _ true (by rfl)

/-! ## Empty and whitespace-only cells -/

/-- C7 counterexample: `rmd_to_colab_01.py` emits a whitespace-only
markdown cell.  Two blank lines between chunks survive its emission filter
(the content `"\n"` is whitespace-only but contains a newline, and the
filter keeps any content containing `"\n"`), so the converted document
contains the markdown cell `"\n"`. -/
theorem whitespace_cell_emitted :
    rmd01_convert_cells ["```\x7br\x7d", "x", "```", "", "", "```\x7br\x7d", "y", "```"] =
      [NbCell.md IMAGE_MD, NbCell.code setupCode, NbCell.code "%%R\nx",
       NbCell.md "\n", NbCell.code "%%R\ny"] ∧
    pystrip "\n" = "" := by decide

/-- C7 amended: empty spans produce zero cells in both splitters, and
`split_headings` of `batch_qmd_to_ipynb.py` never returns a blank block
(its final filter keeps only blocks whose strip is non-empty), so no
empty or whitespace-only markdown cell reaches `qmd_to_cells`' output;
but the emission filter of `rmd_to_colab_01.py` does pass multi-line
whitespace-only content, as the counterexample shows. -/
theorem no_blank_cells_split_headings :
    split_headings ([] : List String) = [] ∧
    split_markdown_into_heading_cells ([] : List String) = [] ∧
    ∀ (lines : List String) (b : String), b ∈ split_headings lines → pystrip b ≠ "" := by
  refine ⟨rfl, rfl, fun lines b hb => ?_⟩
  simp only [split_headings] at hb
  rw [List.mem_filter] at hb
  simpa using hb.2

/-- Witness for the amended C7: the block emitted for the one-heading
input is non-blank. -/
theorem no_blank_cells_split_headings_witness :
    pystrip "# T" ≠ "" :=
  no_blank_cells_split_headings.2.2 ["# T"] "# T" (by decide)

/-! ## Untagged fences -/

/-- C8 counterexample: in `rmd_to_colab.py` a fenced block with no
language tag is not recognized as a chunk at all — its fence lines fail
the `^```{(\w+)}` open pattern, so the whole block is emitted as markdown
and no code cell (and no setup insertion) results. -/
theorem untagged_fence_not_chunk_rmd :
    rmd_convert_cells ["```", "x <- 1", "```"] =
      [NbCell.md IMAGE_MD, NbCell.md "```\nx <- 1\n```"] := by decide

/-- In prose mode, a run of lines none of which opens a chunk is consumed
whole and flushed as prose at end-of-file. -/
theorem scanLines_all_prose (em : List String → List NbCell) (firstR : Bool)
    (lines buf : List String)
    (h : ∀ l ∈ lines, chunkStartLang (pyRstrip l) = none) :
    scanLines em (ScanMode.prose buf) firstR lines = flushProse em (buf ++ lines) := by
  induction lines generalizing buf with
  | nil => simp [scanLines]
  | cons l ls ih =>
    have hl : chunkStartLang (pyRstrip l) = none := h l (by simp)
    simp only [scanLines, hl]
    rw [ih (buf ++ [l]) (fun x hx => h x (by simp [hx]))]
    simp

/-- C8 amended: no converter classifies an untagged fence as the primary
language.  In `rmd_to_colab.py` (shown here; `rmd_to_colab_01.py` shares
the scanner) an untagged fence never opens a chunk, so any document made
of such lines is emitted as one markdown cell — no code cell, no setup.
In `batch_qmd_to_ipynb.py` the `engine in {"r", ""}` test at line 121 can
likewise never fire on an untagged fence, because `CHUNK_RE` cannot
capture an empty engine at all (see the note on `Chunk`): a lone untagged
fence produces no match and its lines fall through to the prose path. -/
theorem untagged_fence_stays_prose (body : List String)
    (hne : body ≠ [])
    (h : ∀ l ∈ body, chunkStartLang (pyRstrip l) = none ∧
        pyStartsWith (pystrip l) "#|" = false) :
    rmd_convert_cells body = [NbCell.md IMAGE_MD, NbCell.md (joinLines body)] := by
  unfold rmd_convert_cells
  have hf : remove_knitr_quarto_options body = body := by
    unfold remove_knitr_quarto_options
    rw [List.filter_eq_self.mpr]
    intro a ha
    simp [(h a ha).2]
  rw [hf, scanLines_all_prose emitMdPlain false body [] (fun l hl => (h l hl).1)]
  simp [flushProse, hne, emitMdPlain]

/-- Witness for the amended C8: the untagged fenced block becomes a single
markdown cell after the image cell. -/
theorem untagged_fence_stays_prose_witness :
    rmd_convert_cells ["```", "x <- 1", "```"] =
      [NbCell.md IMAGE_MD, NbCell.md (joinLines ["```", "x <- 1", "```"])] :=
  untagged_fence_stays_prose ["```", "x <- 1", "```"] (by decide) (by decide)

/-! ## Per-file failure isolation -/

theorem batch_main_length (fs : List QmdFile) :
    (batch_main fs).length = fs.length := by
  induction fs with
  | nil => rfl
  | cons f fs ih => simp [batch_main, ih]

/-- C9 counterexample: in `rmd_to_colab.py` a failure on one file aborts
the whole run.  With three input files whose middle one fails to read,
the run processes only the first file, surfaces the uncaught exception,
and never reaches the third file — there is no caught-and-logged per-file
failure and processing does not continue. -/
theorem rmd_batch_aborts_on_failure :
    rmd_main [⟨"a.qmd", Except.ok ["# Intro"]⟩,
              ⟨"bad.qmd", Except.error "read failure"⟩,
              ⟨"c.qmd", Except.ok ["# More"]⟩] =
      (["a.qmd"], some "read failure") := by rfl

/-- C9 amended: per-file failure isolation holds for
`batch_qmd_to_ipynb.py`, whose `convert_file` wraps each file in
`try/except` — a failing file yields one logged `failed` outcome and
every other file, before and after it, is processed exactly as it would
have been — but not for `rmd_to_colab.py` (or `rmd_to_colab_01.py`),
whose conversion and loop catch nothing: there the first failing file's
exception aborts the run, and the files after it are never processed. -/
theorem failure_isolation_batch_not_rmd :
    (∀ (pre post : List QmdFile) (f : QmdFile) (e : String),
        f.read = Except.error e →
        batch_main (pre ++ f :: post) =
          batch_main pre ++ ConvResult.failed f.name e :: batch_main post ∧
        (batch_main (pre ++ f :: post)).length = pre.length + 1 + post.length) ∧
    (∀ (pre post : List RmdFile) (f : RmdFile) (e : String),
        (∀ g ∈ pre, ∃ doc, g.read = Except.ok doc) →
        f.read = Except.error e →
        rmd_main (pre ++ f :: post) = (pre.map RmdFile.name, some e)) := by
  constructor
  · intro pre post f e h
    constructor
    · induction pre with
      | nil => simp [batch_main, convert_file, h]
      | cons g gs ih => simp only [List.cons_append, batch_main, ih, List.append_eq]
    · rw [batch_main_length]
      simp
      omega
  · intro pre post f e hpre h
    induction pre with
    | nil => simp [rmd_main, rmd_convert_file, h]
    | cons g gs ih =>
      obtain ⟨doc, hg⟩ := hpre g (by simp)
      have ih' := ih (fun x hx => hpre x (by simp [hx]))
      simp [rmd_main, rmd_convert_file, hg, ih']

/-- Witness for the amended C9: a concrete failing file is isolated in the
batch loop and aborts the rmd loop, the file after it unprocessed. -/
theorem failure_isolation_batch_not_rmd_witness :
    (batch_main ([] ++ (⟨"bad.qmd", Except.error "boom"⟩ : QmdFile) :: []) =
      batch_main [] ++ ConvResult.failed "bad.qmd" "boom" :: batch_main [] ∧
    (batch_main ([] ++ (⟨"bad.qmd", Except.error "boom"⟩ : QmdFile) :: [])).length =
      ([] : List QmdFile).length + 1 + ([] : List QmdFile).length) ∧
    rmd_main ([] ++ (⟨"bad.qmd", Except.error "boom"⟩ : RmdFile) ::
        [⟨"after.qmd", Except.ok ["text"]⟩]) =
      (([] : List RmdFile).map RmdFile.name, some "boom") :=
  ⟨failure_isolation_batch_not_rmd.1 [] [] ⟨"bad.qmd", Except.error "boom"⟩ "boom" rfl,
   failure_isolation_batch_not_rmd.2 [] [⟨"after.qmd", Except.ok ["text"]⟩]
     ⟨"bad.qmd", Except.error "boom"⟩ "boom" (by simp) rfl⟩

/-! ## The banner cell -/

/-- C10: whatever the input — chunks or none, prose or none — the emitted
cell sequence is non-empty and starts with the fixed banner image cell:
`qmd_to_cells` starts from `[BANNER]` and only appends, and both
`rmd_to_colab` converters start from the image markdown cell and only
append. -/
theorem first_cell_is_banner (d : ParsedDoc) (lines : List String) :
    (qmd_to_cells d).head? = some BANNER ∧ qmd_to_cells d ≠ [] ∧
    (rmd_convert_cells lines).head? = some (NbCell.md IMAGE_MD) ∧
    (rmd01_convert_cells lines).head? = some (NbCell.md IMAGE_MD) :=
  ⟨rfl, by simp [qmd_to_cells], rfl, rfl⟩
